import Mathlib

/-!
Shallow embedding of the FPL analytics repository's optimization engine:
the player scoring model, squad builder and transfer recommender from
`analyze_my_team.py`, and the fixture outcome predictors from
`advanced_fixture_predictor.py`.  Machine floats are modelled as exact
rationals; pandas NaN cells of numeric columns are modelled as `Option ℚ`
with `none` for NaN.
-/

namespace FPL

/-- Availability status flag: the source compares `status == 'a'`. -/
def statusAvailable : String := "a"

def posGK : String := "GK"

def posDEF : String := "DEF"

def posMID : String := "MID"

def posFWD : String := "FWD"

/-!
## ScoreModel — `FPLPlayerAnalyzer.calculate_value_score`

One dataframe row.  The base columns come from the snapshot; the string
columns that `pd.to_numeric(..., errors='coerce')` is applied to are
`Option ℚ` (NaN = `none`).  The derived columns (`points_per_million`,
`form_per_million`, `expected_involvement`, the five `*_normalized`
columns and `value_score`) are present in the row type so that a scored
frame can be fed back into the scorer; the scorer never reads them, it
only overwrites them, exactly as the source recomputes those columns.
-/
structure Row where
  id : ℕ
  web_name : String
  team_short : String
  position : String
  status : String
  minutes : ℤ
  total_points : ℚ
  price : ℚ
  selected_by_percent : Option ℚ
  form : Option ℚ
  points_per_game : Option ℚ
  ict_index : Option ℚ
  expected_goals : Option ℚ
  expected_assists : Option ℚ
  chance_of_playing_next_round : Option ℚ
  points_per_million : ℚ
  form_per_million : ℚ
  expected_involvement : ℚ
  points_per_game_normalized : ℚ
  form_normalized : ℚ
  points_per_million_normalized : ℚ
  ict_index_normalized : ℚ
  expected_involvement_normalized : ℚ
  value_score : ℚ
deriving DecidableEq, Inhabited

/-- Minimum of a rational column (`MinMaxScaler`'s data_min over the pool). -/
def colMin : List ℚ → ℚ
  | [] => 0
  | x :: t => t.foldl min x

/-- Maximum of a rational column (`MinMaxScaler`'s data_max over the pool). -/
def colMax : List ℚ → ℚ
  | [] => 0
  | x :: t => t.foldl max x

/-- Min-max scaling of one value against a column, as `sklearn`'s
`MinMaxScaler.fit_transform` does per metric: `(x - min) / (max - min)`,
with a constant column mapped to `0` (sklearn replaces a zero data range
by a unit scale, which sends every pool value to `0`). -/
def minmax (xs : List ℚ) (x : ℚ) : ℚ :=
  if colMax xs - colMin xs = 0 then 0 else (x - colMin xs) / (colMax xs - colMin xs)

/-- Column accessor for `points_per_game` after the NaN fill (`fillna(0)`). -/
def ppgV (r : Row) : ℚ := r.points_per_game.getD 0

/-- Column accessor for `form` after the NaN fill. -/
def formV (r : Row) : ℚ := r.form.getD 0

/-- Column accessor for the derived `points_per_million` column. -/
def ppmV (r : Row) : ℚ := r.points_per_million

/-- Column accessor for `ict_index` after the NaN fill. -/
def ictV (r : Row) : ℚ := r.ict_index.getD 0

/-- Column accessor for the derived `expected_involvement` column. -/
def eiV (r : Row) : ℚ := r.expected_involvement

/-- Column accessor for `chance_of_playing_next_round` after the NaN fill. -/
def chanceV (r : Row) : ℚ := r.chance_of_playing_next_round.getD 0

/-- Lines 31-47 of `analyze_my_team.py`: `pd.to_numeric` (already reflected
in the `Option ℚ` cells), `fillna(0)`, and the three derived columns
`points_per_million = total_points / price`,
`form_per_million = form / price`,
`expected_involvement = expected_goals + expected_assists`. -/
def fillAndDerive (r : Row) : Row :=
  let form := r.form.getD 0
  let eg := r.expected_goals.getD 0
  let ea := r.expected_assists.getD 0
  { r with
    selected_by_percent := some (r.selected_by_percent.getD 0)
    form := some form
    points_per_game := some (r.points_per_game.getD 0)
    ict_index := some (r.ict_index.getD 0)
    expected_goals := some eg
    expected_assists := some ea
    chance_of_playing_next_round := some (r.chance_of_playing_next_round.getD 0)
    points_per_million := r.total_points / r.price
    form_per_million := form / r.price
    expected_involvement := eg + ea }

/-- The frame after the `minutes > 0` filter, the NaN fill and the derived
columns — the state of `df` at line 49 of the source. -/
def prep (rows : List Row) : List Row :=
  (rows.filter (fun r => decide (0 < r.minutes))).map fillAndDerive

/-- The composite value score of line 65, before the availability
penalties: the weighted sum of the five min-max normalized metrics with
the fixed weights 0.25 / 0.25 / 0.20 / 0.15 / 0.15.  `c1 .. c5` are the
pool columns the scaler was fit on. -/
def baseScore (c1 c2 c3 c4 c5 : List ℚ) (r : Row) : ℚ :=
  minmax c1 (ppgV r) * (25/100) + minmax c2 (formV r) * (25/100) +
    minmax c3 (ppmV r) * (20/100) + minmax c4 (ictV r) * (15/100) +
    minmax c5 (eiV r) * (15/100)

/-- Lines 52-69: write the five normalized columns, the composite
`value_score`, then the two availability penalties — `*= 0.5` on rows
with `chance_of_playing_next_round < 100`, then `*= 0.3` on rows with
`status != 'a'`. -/
def scoreRow (c1 c2 c3 c4 c5 : List ℚ) (r : Row) : Row :=
  let vs := baseScore c1 c2 c3 c4 c5 r
  let vs := if chanceV r < 100 then vs * (5/10) else vs
  let vs := if r.status ≠ "a" then vs * (3/10) else vs
  { r with
    points_per_game_normalized := minmax c1 (ppgV r)
    form_normalized := minmax c2 (formV r)
    points_per_million_normalized := minmax c3 (ppmV r)
    ict_index_normalized := minmax c4 (ictV r)
    expected_involvement_normalized := minmax c5 (eiV r)
    value_score := vs }

/-- The whole of `calculate_value_score` on the loaded players frame:
filter, fill, derive, normalize each of the five metrics over the
current pool, combine, penalize.  Returns the scored frame (which the
source also stores back into `self.players_df`). -/
def calculate_value_score (rows : List Row) : List Row :=
  (prep rows).map
    (scoreRow ((prep rows).map ppgV) ((prep rows).map formV) ((prep rows).map ppmV)
      ((prep rows).map ictV) ((prep rows).map eiV))

/-- The base composite score of an output row of `calculate_value_score`,
against the columns of the pool it was scored in (its value before the
availability penalties were applied). -/
def baseOf (rows : List Row) (r : Row) : ℚ :=
  baseScore ((prep rows).map ppgV) ((prep rows).map formV) ((prep rows).map ppmV)
    ((prep rows).map ictV) ((prep rows).map eiV) r

/-!
## Column-presence model for the ConfigurationError claim (C7)

pandas raises `KeyError(<column name>)` when `df['col']` names a column
that is structurally absent.  `DataFrame` carries the set of column
names actually present; `calcChecked` performs the column accesses of
`calculate_value_score` in source order before computing, and fails with
the name of the first absent column, as the source does.
-/
inductive ColError where
  | missingColumn : String → ColError
deriving DecidableEq

structure DataFrame where
  cols : List String
  rows : List Row

/-- Column presence test. -/
def hasCol (df : DataFrame) (c : String) : Bool := df.cols.contains c

/-- One column access `df[c]`: `KeyError(c)` when the column is absent. -/
def getCol (df : DataFrame) (c : String) : Except ColError Unit :=
  if hasCol df c then .ok () else .error (.missingColumn c)

/-- The columns `calculate_value_score` accesses with `df[...]`, in the
order the source accesses them (lines 29, 32-37, 43, 68, 69). -/
def requiredCols : List String :=
  ["minutes", "selected_by_percent", "form", "points_per_game", "ict_index",
   "expected_goals", "expected_assists", "total_points", "price",
   "chance_of_playing_next_round", "status"]

/-- Sequential column accesses; fails at the first absent column. -/
def requireCols (df : DataFrame) : List String → Except ColError Unit
  | [] => .ok ()
  | c :: cs =>
    match getCol df c with
    | .error e => .error e
    | .ok _ => requireCols df cs

/-- `calculate_value_score` including the column accesses: every access
the source performs must succeed, then the computation proceeds on the
rows.  A missing column never gets a substituted default: the call
fails. -/
def calcChecked (df : DataFrame) : Except ColError (List Row) :=
  match requireCols df requiredCols with
  | .error e => .error e
  | .ok _ => .ok (calculate_value_score df.rows)

/-- First required column absent from the frame, in access order. -/
def firstMissing (df : DataFrame) : Option String :=
  requiredCols.find? (fun c => !(hasCol df c))

/-!
## SquadBuilder — `FPLPlayerAnalyzer.build_optimal_squad`
-/

/-- A scored player as the squad builder and transfer recommender see it
(relevant columns of the scored frame). -/
structure ScoredPlayer where
  id : ℕ
  web_name : String
  team_short : String
  position : String
  price : ℚ
  status : String
  value_score : ℚ
deriving DecidableEq, Inhabited

/-- Number of squad members from one club. -/
def countClub (l : List ScoredPlayer) (c : String) : ℕ :=
  (l.filter (fun p => p.team_short == c)).length

/-- Total price of a list of players (`squad_df['price'].sum()`). -/
def totalPrice (l : List ScoredPlayer) : ℚ := (l.map (fun p => p.price)).sum

/-- Mutable state of the greedy loop: `squad`, `remaining_budget` and the
`team_counts` dict (a Python dict read with `.get(team, 0)`). -/
structure BuildState where
  squad : List ScoredPlayer
  remaining : ℚ
  counts : String → ℕ

/-- Inner loop over one position's sorted candidates (lines 143-159):
break once the quota is filled; skip a candidate whose club already has
3 selected; accept a candidate whose price fits the remaining budget. -/
def pickLoop : List ScoredPlayer → ℕ → ℕ → BuildState → BuildState
  | [], _, _, st => st
  | p :: rest, selected, count, st =>
    if count ≤ selected then st
    else if 3 ≤ st.counts p.team_short then pickLoop rest selected count st
    else if p.price ≤ st.remaining then
      pickLoop rest (selected + 1) count
        ⟨st.squad ++ [p], st.remaining - p.price,
          fun c => if c = p.team_short then st.counts p.team_short + 1 else st.counts c⟩
    else pickLoop rest selected count st

/-- Outer loop over the formation, with a pre-ordered candidate list per
position.  The order of each list is whatever `sort_values('value_score',
ascending=False)` produced: sorted by descending score, tie order left to
the sort implementation. -/
def buildLoopOrd : List (List ScoredPlayer × ℕ) → BuildState → BuildState
  | [], st => st
  | (ps, count) :: rest, st => buildLoopOrd rest (pickLoop ps 0 count st)

/-- The formation dict `{'GK': 2, 'DEF': 5, 'MID': 5, 'FWD': 3}` in its
(insertion-ordered) iteration order. -/
def formation : List (String × ℕ) := [(posGK, 2), (posDEF, 5), (posMID, 5), (posFWD, 3)]

/-- Candidates for one position: `position == pos` and `status == 'a'`. -/
def eligible (pool : List ScoredPlayer) (pos : String) : List ScoredPlayer :=
  pool.filter (fun p => p.position == pos && p.status == "a")

/-- Stable insertion into a list sorted by descending key. -/
def insertDescBy {α : Type} (key : α → ℚ) (a : α) : List α → List α
  | [] => [a]
  | b :: t => if key b ≤ key a then a :: b :: t else b :: insertDescBy key a t

/-- Stable sort by descending key (the executable stand-in for
`sort_values(..., ascending=False)` / Python's `sorted(..., reverse=True)`
/ `nlargest`; ties keep their input order). -/
def sortDescBy {α : Type} (key : α → ℚ) : List α → List α
  | [] => []
  | a :: t => insertDescBy key a (sortDescBy key t)

/-- The per-position candidate lists of `build_optimal_squad`, sorted by
descending value score. -/
def orderedCandidates (pool : List ScoredPlayer) : List (List ScoredPlayer × ℕ) :=
  formation.map (fun pc => (sortDescBy (fun p => p.value_score) (eligible pool pc.1), pc.2))

/-- The squad list the greedy selection accumulates. -/
def selectSquad (pool : List ScoredPlayer) (budget : ℚ) : List ScoredPlayer :=
  (buildLoopOrd (orderedCandidates pool) ⟨[], budget, fun _ => 0⟩).squad

/-- The value `build_optimal_squad` returns: the selected squad frame.
When the selection is empty, `pd.DataFrame([])` has no `price` column and
`squad_df['price'].sum()` on line 162 raises `KeyError` before the
return — modelled as `none`. -/
def buildOptimalSquad (pool : List ScoredPlayer) (budget : ℚ) : Option (List ScoredPlayer) :=
  if (selectSquad pool budget).isEmpty then none else some (selectSquad pool budget)

/-- A candidate ordering `sort_values('value_score', ascending=False)`
may legitimately produce: a permutation of the eligible pool that is
sorted by descending value score (the sort is not stable and applies no
further key, so the tie order is not specified). -/
def SortValuesOf (base l : List ScoredPlayer) : Prop :=
  l.Perm base ∧ l.Sorted (fun a b => b.value_score ≤ a.value_score)

/-- Pairwise-distinct value scores on a list of players. -/
def DistinctScores (l : List ScoredPlayer) : Prop :=
  l.Pairwise (fun a b => a.value_score ≠ b.value_score)

/-!
## TransferRecommender — `FPLPlayerAnalyzer.recommend_transfers`
-/

/-- One recommendation record as appended on lines 239-254.  The source
stores display projections (names, prices, scores, forms) of the two
players; the embedding keeps the two player records themselves together
with the derived `price_change`, `score_improvement` and
`team_count_after` fields, so every stored scalar is a projection of
this record. -/
structure TransferRec where
  position : String
  out_p : ScoredPlayer
  in_p : ScoredPlayer
  price_change : ℚ
  score_improvement : ℚ
  team_count_after : ℕ
deriving DecidableEq, Inhabited

/-- The players whose ids are in the stored squad (`current_team`). -/
def currentTeam (pool : List ScoredPlayer) (ids : List ℕ) : List ScoredPlayer :=
  pool.filter (fun p => ids.contains p.id)

/-- The complement pool (`available`): players not in the current squad. -/
def availablePool (pool : List ScoredPlayer) (ids : List ℕ) : List ScoredPlayer :=
  pool.filter (fun p => !(ids.contains p.id))

/-- Lines 211-220: replacement candidates for one outgoing player —
same-position available players priced within ±1.5 of the outgoing
player, strictly better score, status available; then
`nlargest(100, 'value_score')`. -/
def replacementsFor (available_pos : List ScoredPlayer) (cur : ScoredPlayer) : List ScoredPlayer :=
  (sortDescBy (fun p => p.value_score)
    (available_pos.filter (fun p =>
      decide (cur.price - 3/2 ≤ p.price) && decide (p.price ≤ cur.price + 3/2) &&
        decide (cur.value_score < p.value_score) && (p.status == "a")))).take 100

/-- Build the recommendation record of lines 239-254. -/
def recOf (pos : String) (cur rep : ScoredPlayer) (after : ℕ) : TransferRec :=
  ⟨pos, cur, rep, rep.price - cur.price, rep.value_score - cur.value_score, after⟩

/-- The club-cap logic of lines 223-235: `team_count_after` for the
incoming player's club, or `none` when the candidate is rejected
(`continue`) because a different club already has 3 players.  The
`value_counts` dict contains a club iff its count in the current squad
is nonzero. -/
def teamCountAfter (ct : List ScoredPlayer) (cur rep : ScoredPlayer) : Option ℕ :=
  if countClub ct rep.team_short ≠ 0 then
    if rep.team_short = cur.team_short then some (countClub ct rep.team_short)
    else if 3 ≤ countClub ct rep.team_short then none
    else some (countClub ct rep.team_short + 1)
  else some 1

/-- One candidate's full check: the club-cap logic followed by the
`if team_count_after <= 3` append guard of line 237. -/
def candFor (ct : List ScoredPlayer) (pos : String) (cur rep : ScoredPlayer) :
    Option TransferRec :=
  match teamCountAfter ct cur rep with
  | none => none
  | some a => if a ≤ 3 then some (recOf pos cur rep a) else none

/-- All appended recommendations for one outgoing player, in candidate
order. -/
def recsForOut (ct available_pos : List ScoredPlayer) (pos : String) (cur : ScoredPlayer) :
    List TransferRec :=
  (replacementsFor available_pos cur).filterMap (candFor ct pos cur)

/-- Lines 200-261 for one position: gather the records over every
outgoing player of the position, sort them all by descending score
improvement, keep the top 3 — a per-position cap. -/
def positionRecs (ct avail : List ScoredPlayer) (pos : String) : List TransferRec :=
  (sortDescBy (fun r => r.score_improvement)
    (((ct.filter (fun p => p.position == pos)).map
      (recsForOut ct (avail.filter (fun p => p.position == pos)) pos)).flatten)).take 3

/-- The four positions in loop order (line 200). -/
def positions : List String := [posGK, posDEF, posMID, posFWD]

/-- The whole of `recommend_transfers`: per-position top-3 lists
concatenated, then — when nonempty — the overall list is re-sorted by
descending score improvement and capped at `transfers_available * 3`
(line 289); an empty recommendation set returns an empty frame. -/
def recommend_transfers (pool : List ScoredPlayer) (ids : List ℕ)
    (transfers_available : ℕ) : List TransferRec :=
  if ((positions.map (positionRecs (currentTeam pool ids) (availablePool pool ids))).flatten).isEmpty
  then []
  else
    (sortDescBy (fun r => r.score_improvement)
      ((positions.map (positionRecs (currentTeam pool ids) (availablePool pool ids))).flatten)).take
      (transfers_available * 3)

/-- The squad after a proposed swap: the outgoing player removed, the
incoming player added. -/
def swapSquad (sq : List ScoredPlayer) (outP inP : ScoredPlayer) : List ScoredPlayer :=
  sq.erase outP ++ [inP]

/-!
## FixtureDifficultyEstimator — `AdvancedFixturePredictor`
-/

/-- Per-club strength entry as built by `calculate_team_strength`
(the `avg_points` key is never read by the three predictors and is
omitted). -/
structure TeamStats where
  attack : ℚ
  defense : ℚ
  overall : ℚ
deriving DecidableEq, Inhabited

/-- The default strengths substituted by `.get(team, {'attack': 50,
'defense': 50, 'overall': 100})` for a club absent from the strength
table (the `predict_goals` / `predict_clean_sheet` default dicts carry
only the keys those functions read; the values agree with these). -/
def defaultStats : TeamStats := ⟨50, 50, 100⟩

/-- Dict lookup `self.team_strength.get(team, ...)` without the default. -/
def lookupStats (ts : List (String × TeamStats)) (t : String) : Option TeamStats :=
  (ts.find? (fun e => e.1 == t)).map (fun e => e.2)

/-- Dict lookup with the default strengths. -/
def statsOrDefault (ts : List (String × TeamStats)) (t : String) : TeamStats :=
  (lookupStats ts t).getD defaultStats

/-- Outcome probabilities dict of `predict_match_outcome`. -/
structure Outcome where
  home_win : ℚ
  draw : ℚ
  away_win : ℚ
deriving DecidableEq, Inhabited

/-- The piecewise rule of lines 67-93: home advantage 1.15 on the home
overall strength, then four strength-difference bands, each producing a
triple that sums to 1 before clamping. -/
def rawOutcome (h_stats a_stats : TeamStats) : ℚ × ℚ × ℚ :=
  let home_total := h_stats.overall * (1 + 15/100)
  let away_total := a_stats.overall
  let d := home_total - away_total
  if 50 < d then
    let hw := 60/100 + min (d / 500) (25/100)
    (hw, 25/100, 1 - hw - 25/100)
  else if 0 < d then
    let hw := 45/100 + d / 200
    (hw, 30/100, 1 - hw - 30/100)
  else if -50 < d then
    let aw := 35/100 + |d| / 200
    (1 - aw - 30/100, 30/100, aw)
  else
    let aw := 50/100 + min (|d| / 500) (25/100)
    (1 - aw - 25/100, 25/100, aw)

/-- Clamp `x` into `[lo, hi]` the way the source writes it:
`max(lo, min(hi, x))`. -/
def clampQ (lo hi x : ℚ) : ℚ := max lo (min hi x)

/-- The returned dict of lines 95-99: each probability clamped — home
and away win to [0.05, 0.85], draw to [0.15, 0.40] — with no
renormalization after clamping. -/
def outcomeFromStats (h_stats a_stats : TeamStats) : Outcome :=
  ⟨clampQ (5/100) (85/100) (rawOutcome h_stats a_stats).1,
    clampQ (15/100) (40/100) (rawOutcome h_stats a_stats).2.1,
    clampQ (5/100) (85/100) (rawOutcome h_stats a_stats).2.2⟩

/-- `predict_match_outcome(home_team, away_team)` over a given strength
table. -/
def predictMatchOutcome (ts : List (String × TeamStats)) (home away : String) : Outcome :=
  outcomeFromStats (statsOrDefault ts home) (statsOrDefault ts away)

/-- Expected-goals dict of `predict_goals` (each entry rounded to two
decimals by `round(x, 2)`). -/
structure Goals where
  home_goals : ℚ
  away_goals : ℚ
  total_goals : ℚ
deriving DecidableEq, Inhabited

/-- Python's `round(x, 2)` modelled with round-half-up on exact
rationals (the two differ only on exact two-decimal halfway values,
which the predictors' inputs do not hit exactly in binary floats
anyway). -/
def round2 (x : ℚ) : ℚ := ((round (x * 100) : ℤ) : ℚ) / 100

/-- Lines 101-123: expected goals from attack strength against the
opponent's defense, clamped to [0.3, 3.5] at home and [0.2, 3.0] away;
the total sums the clamped (unrounded) values. -/
def goalsFromStats (h_stats a_stats : TeamStats) : Goals :=
  let home_goals := (h_stats.attack / 30) * (1 - a_stats.defense / 150) * (13/10)
  let away_goals := (a_stats.attack / 30) * (1 - h_stats.defense / 150) * (11/10)
  let home_goals := max (3/10) (min (35/10) home_goals)
  let away_goals := max (2/10) (min 3 away_goals)
  ⟨round2 home_goals, round2 away_goals, round2 (home_goals + away_goals)⟩

/-- `predict_goals(home_team, away_team)` over a strength table. -/
def predictGoals (ts : List (String × TeamStats)) (home away : String) : Goals :=
  goalsFromStats (statsOrDefault ts home) (statsOrDefault ts away)

/-- Lines 125-143: clean-sheet probability — the mean of the defense
factor and the complement of the opponent's attack factor, a 1.1 boost
at home, clamped to [0.05, 0.65]. -/
def cleanSheetFromStats (t_stats o_stats : TeamStats) (is_home : Bool) : ℚ :=
  let defense_factor := t_stats.defense / 100
  let attack_factor := 1 - o_stats.attack / 100
  let cs := (defense_factor + attack_factor) / 2
  let cs := if is_home then cs * (11/10) else cs
  max (5/100) (min (65/100) cs)

/-- `predict_clean_sheet(team, opponent, is_home)` over a strength
table. -/
def predictCleanSheet (ts : List (String × TeamStats)) (team opp : String)
    (is_home : Bool) : ℚ :=
  cleanSheetFromStats (statsOrDefault ts team) (statsOrDefault ts opp) is_home

/-!
## Concrete inputs used to instantiate the theorems
-/

/-- A single available goalkeeper used to instantiate the squad-builder
budget/club-cap theorem. -/
def c1GK : ScoredPlayer := ⟨1, "W", "TA", posGK, 4, statusAvailable, 9/10⟩

def c1Pool : List ScoredPlayer := [c1GK]

def c1Club : String := "TA"

/-- Scoring witness rows: a fully available player and a doubtful one
(status `d`, 75% chance of playing). -/
def c2r1 : Row :=
  ⟨1, "P1", "TA", posMID, statusAvailable, 90, 50, 5, some 10, some 5, some 4,
    some 30, some 2, some 1, some 100, 0, 0, 0, 0, 0, 0, 0, 0, 0⟩

def c2r2 : Row :=
  ⟨2, "P2", "TB", posMID, "d", 45, 20, 4, some 5, some 2, some 3,
    some 40, some 1, none, some 75, 0, 0, 0, 0, 0, 0, 0, 0, 0⟩

def c2Rows : List Row := [c2r1, c2r2]

/-- The scored output row of the doubtful player. -/
def c2Out : Row := (calculate_value_score c2Rows).getLastD default

/-- Strength table realizing the spec's worked example: overall
strengths 120 (home) and 80 (away). -/
def c3Table : List (String × TeamStats) := [("HHH", ⟨60, 60, 120⟩), ("AAA", ⟨40, 40, 80⟩)]

def c3H : String := "HHH"

def c3A : String := "AAA"

/-- Transfer witness: a one-player squad and one strictly better
same-position candidate from another club. -/
def c4Out : ScoredPlayer := ⟨1, "O", "TA", posGK, 5, statusAvailable, 1/10⟩

def c4In : ScoredPlayer := ⟨2, "I", "TB", posGK, 5, statusAvailable, 8/10⟩

def c4Pool : List ScoredPlayer := [c4Out, c4In]

def c4Ids : List ℕ := [1]

def c4TransferRec : TransferRec := recOf posGK c4Out c4In 1

/-- Counterexample pool for the per-player-cap claim: two outgoing
goalkeepers whose candidates compete in one per-position ranking. -/
def c5A : ScoredPlayer := ⟨11, "A", "TA", posGK, 5, statusAvailable, 1/10⟩

def c5B : ScoredPlayer := ⟨12, "B", "TB", posGK, 5, statusAvailable, 6/10⟩

def c5X1 : ScoredPlayer := ⟨21, "X1", "TC", posGK, 5, statusAvailable, 9/10⟩

def c5X2 : ScoredPlayer := ⟨22, "X2", "TD", posGK, 5, statusAvailable, 85/100⟩

def c5X3 : ScoredPlayer := ⟨23, "X3", "TE", posGK, 5, statusAvailable, 8/10⟩

def c5Pool : List ScoredPlayer := [c5A, c5B, c5X1, c5X2, c5X3]

def c5Ids : List ℕ := [11, 12]

def c5CT : List ScoredPlayer := currentTeam c5Pool c5Ids

def c5AvailPos : List ScoredPlayer :=
  (availablePool c5Pool c5Ids).filter (fun p => p.position == posGK)

/-- Witness pool for the partial-build theorem. -/
def c6GK : ScoredPlayer := ⟨1, "W", "TA", posGK, 4, statusAvailable, 9/10⟩

def c6Pool : List ScoredPlayer := [c6GK]

/-- Frame with some required columns present but `form` absent. -/
def c7Df : DataFrame := ⟨["minutes", "selected_by_percent", "points_per_game"], []⟩

def colForm : String := "form"

/-- Two equal-score goalkeepers of different clubs and prices; with
budget 5 only the first of the chosen order fits. -/
def c8g1 : ScoredPlayer := ⟨1, "G1", "TA", posGK, 5, statusAvailable, 1/2⟩

def c8g2 : ScoredPlayer := ⟨2, "G2", "TB", posGK, 4, statusAvailable, 1/2⟩

def c8Pool : List ScoredPlayer := [c8g1, c8g2]

def c8Ord1 : List (List ScoredPlayer × ℕ) := [([c8g1, c8g2], 2), ([], 5), ([], 5), ([], 3)]

def c8Ord2 : List (List ScoredPlayer × ℕ) := [([c8g2, c8g1], 2), ([], 5), ([], 5), ([], 3)]

/-- Witness pool for the distinct-scores determinism theorem. -/
def c8wGK : ScoredPlayer := ⟨1, "G", "TA", posGK, 5, statusAvailable, 1/2⟩

def c8wPool : List ScoredPlayer := [c8wGK]

/-- Idempotence witness rows (positive prices). -/
def c9r1 : Row :=
  ⟨1, "P1", "TA", posMID, statusAvailable, 90, 50, 5, some 10, some 5, some 4,
    some 30, some 2, some 1, some 100, 0, 0, 0, 0, 0, 0, 0, 0, 0⟩

def c9r2 : Row :=
  ⟨2, "P2", "TB", posFWD, "i", 45, 20, 4, none, some 2, some 3,
    some 10, some 1, none, none, 0, 0, 0, 0, 0, 0, 0, 0, 0⟩

def c9Rows : List Row := [c9r1, c9r2]

/-- Strength table, an unknown club code and a known club code for the
default-substitution theorem. -/
def c10Table : List (String × TeamStats) := [("MCI", ⟨60, 60, 120⟩)]

def c10H : String := "XXX"

def c10Known : String := "MCI"

/-!
## Helper lemmas
-/

lemma mem_insertDescBy {α : Type} (key : α → ℚ) (a x : α) (l : List α) :
    x ∈ insertDescBy key a l ↔ x = a ∨ x ∈ l := by
  induction l with
  | nil => simp [insertDescBy]
  | cons b t ih =>
    by_cases h : key b ≤ key a
    · simp [insertDescBy, h, List.mem_cons]
    · simp only [insertDescBy, h, if_false, List.mem_cons, ih]
      tauto

lemma perm_insertDescBy {α : Type} (key : α → ℚ) (a : α) (l : List α) :
    List.Perm (insertDescBy key a l) (a :: l) := by
  induction l with
  | nil => exact List.Perm.refl _
  | cons b t ih =>
    by_cases h : key b ≤ key a
    · simp only [insertDescBy, h, if_true]
      exact List.Perm.refl _
    · simp only [insertDescBy, h, if_false]
      exact (ih.cons b).trans (List.Perm.swap a b t)

lemma perm_sortDescBy {α : Type} (key : α → ℚ) (l : List α) :
    List.Perm (sortDescBy key l) l := by
  induction l with
  | nil => exact List.Perm.refl _
  | cons a t ih => exact (perm_insertDescBy key a _).trans (ih.cons a)

lemma mem_sortDescBy {α : Type} (key : α → ℚ) (x : α) (l : List α) :
    x ∈ sortDescBy key l ↔ x ∈ l :=
  (perm_sortDescBy key l).mem_iff

lemma sorted_insertDescBy {α : Type} (key : α → ℚ) (a : α) (l : List α)
    (h : l.Sorted (fun x y => key y ≤ key x)) :
    (insertDescBy key a l).Sorted (fun x y => key y ≤ key x) := by
  induction l with
  | nil => simp [insertDescBy]
  | cons b t ih =>
    rw [List.sorted_cons] at h
    by_cases hba : key b ≤ key a
    · simp only [insertDescBy, hba, if_true]
      rw [List.sorted_cons]
      refine ⟨?_, List.sorted_cons.mpr h⟩
      intro x hx
      rcases List.mem_cons.mp hx with rfl | hx
      · exact hba
      · exact le_trans (h.1 x hx) hba
    · simp only [insertDescBy, hba, if_false]
      rw [List.sorted_cons]
      refine ⟨?_, ih h.2⟩
      intro x hx
      rcases (mem_insertDescBy key a x t).mp hx with rfl | hx
      · exact le_of_not_le hba
      · exact h.1 x hx

lemma sorted_sortDescBy {α : Type} (key : α → ℚ) (l : List α) :
    (sortDescBy key l).Sorted (fun x y => key y ≤ key x) := by
  induction l with
  | nil => simp [sortDescBy]
  | cons a t ih => exact sorted_insertDescBy key a _ ih

lemma foldl_min_le_init (l : List ℚ) : ∀ a : ℚ, l.foldl min a ≤ a := by
  induction l with
  | nil => intro a; simp
  | cons b t ih => intro a; exact le_trans (ih (min a b)) (min_le_left a b)

lemma foldl_min_le_mem (l : List ℚ) : ∀ (a x : ℚ), x ∈ l → l.foldl min a ≤ x := by
  induction l with
  | nil => intro a x hx; simp at hx
  | cons b t ih =>
    intro a x hx
    rcases List.mem_cons.mp hx with rfl | hx
    · exact le_trans (foldl_min_le_init t (min a x)) (min_le_right a x)
    · exact ih (min a b) x hx

lemma init_le_foldl_max (l : List ℚ) : ∀ a : ℚ, a ≤ l.foldl max a := by
  induction l with
  | nil => intro a; simp
  | cons b t ih => intro a; exact le_trans (le_max_left a b) (ih (max a b))

lemma mem_le_foldl_max (l : List ℚ) : ∀ (a x : ℚ), x ∈ l → x ≤ l.foldl max a := by
  induction l with
  | nil => intro a x hx; simp at hx
  | cons b t ih =>
    intro a x hx
    rcases List.mem_cons.mp hx with rfl | hx
    · exact le_trans (le_max_right a x) (init_le_foldl_max t (max a x))
    · exact ih (max a b) x hx

lemma colMin_le {l : List ℚ} {x : ℚ} (h : x ∈ l) : colMin l ≤ x := by
  cases l with
  | nil => simp at h
  | cons a t =>
    rcases List.mem_cons.mp h with rfl | h
    · exact foldl_min_le_init t x
    · exact foldl_min_le_mem t a x h

lemma le_colMax {l : List ℚ} {x : ℚ} (h : x ∈ l) : x ≤ colMax l := by
  cases l with
  | nil => simp at h
  | cons a t =>
    rcases List.mem_cons.mp h with rfl | h
    · exact init_le_foldl_max t x
    · exact mem_le_foldl_max t a x h

lemma minmax_mem_bounds {l : List ℚ} {x : ℚ} (h : x ∈ l) :
    0 ≤ minmax l x ∧ minmax l x ≤ 1 := by
  unfold minmax
  split
  · exact ⟨le_refl 0, zero_le_one⟩
  · rename_i hne
    have hlo := colMin_le h
    have hhi := le_colMax h
    have h1 : colMin l ≤ colMax l := hlo.trans hhi
    have h2 : colMin l ≠ colMax l := fun he => hne (by rw [he, sub_self])
    have hpos : 0 < colMax l - colMin l := by
      have := lt_of_le_of_ne h1 h2
      linarith
    constructor
    · exact div_nonneg (by linarith) (le_of_lt hpos)
    · rw [div_le_one hpos]
      linarith

lemma countClub_append (l₁ l₂ : List ScoredPlayer) (c : String) :
    countClub (l₁ ++ l₂) c = countClub l₁ c + countClub l₂ c := by
  simp [countClub, List.filter_append]

lemma countClub_cons (p : ScoredPlayer) (l : List ScoredPlayer) (c : String) :
    countClub (p :: l) c = (if p.team_short = c then 1 else 0) + countClub l c := by
  by_cases h : p.team_short = c
  · simp [countClub, List.filter_cons, h]
    omega
  · simp [countClub, List.filter_cons, h]

lemma countClub_nil (c : String) : countClub [] c = 0 := rfl

lemma countClub_pos_of_mem {p : ScoredPlayer} {l : List ScoredPlayer} (h : p ∈ l) :
    1 ≤ countClub l p.team_short := by
  induction l with
  | nil => simp at h
  | cons a t ih =>
    rw [countClub_cons]
    rcases List.mem_cons.mp h with rfl | h
    · simp
    · have := ih h
      omega

lemma countClub_erase {p : ScoredPlayer} {l : List ScoredPlayer} (c : String) (h : p ∈ l) :
    countClub (l.erase p) c = countClub l c - (if p.team_short = c then 1 else 0) := by
  induction l with
  | nil => simp at h
  | cons a t ih =>
    by_cases hap : a = p
    · subst hap
      rw [List.erase_cons_head, countClub_cons]
      omega
    · have hpt : p ∈ t := by
        rcases List.mem_cons.mp h with he | ht
        · exact absurd he.symm hap
        · exact ht
      have hge : (if p.team_short = c then 1 else 0) ≤ countClub t c := by
        by_cases hc : p.team_short = c
        · have := countClub_pos_of_mem hpt
          rw [hc] at this
          simpa [hc] using this
        · simp [hc]
      rw [List.erase_cons_tail, countClub_cons, countClub_cons, ih hpt]
      · omega
      · simp [hap]

/-- Invariant of the greedy squad-building loop: the `team_counts` dict
tracks the per-club counts of the accumulated squad, no club count
exceeds 3, the remaining budget never goes negative, and squad cost
plus remaining budget equals the initial budget. -/
def BuildInv (b : ℚ) (st : BuildState) : Prop :=
  (∀ c, st.counts c = countClub st.squad c) ∧ (∀ c, st.counts c ≤ 3) ∧
    0 ≤ st.remaining ∧ totalPrice st.squad + st.remaining = b

lemma totalPrice_append (l₁ l₂ : List ScoredPlayer) :
    totalPrice (l₁ ++ l₂) = totalPrice l₁ + totalPrice l₂ := by
  simp [totalPrice]

lemma pickLoop_inv (b : ℚ) :
    ∀ (l : List ScoredPlayer) (sel cnt : ℕ) (st : BuildState),
      BuildInv b st → BuildInv b (pickLoop l sel cnt st) := by
  intro l
  induction l with
  | nil => intro sel cnt st h; exact h
  | cons p t ih =>
    intro sel cnt st h
    rw [pickLoop]
    split
    · exact h
    · split
      · exact ih _ _ _ h
      · split
        · rename_i hcur hprice
          apply ih
          obtain ⟨h1, h2, h3, h4⟩ := h
          refine ⟨?_, ?_, ?_, ?_⟩
          · intro c
            simp only
            rw [countClub_append, countClub_cons, countClub_nil]
            by_cases hc : c = p.team_short
            · subst hc
              simp [h1]
            · have : ¬(p.team_short = c) := fun he => hc he.symm
              simp [hc, this, h1]
          · intro c
            show (if c = p.team_short then st.counts p.team_short + 1 else st.counts c) ≤ 3
            by_cases hc : c = p.team_short
            · rw [if_pos hc]
              omega
            · rw [if_neg hc]
              exact h2 c
          · simp only
            linarith
          · simp only
            rw [totalPrice_append]
            simp only [totalPrice, List.map_cons, List.map_nil, List.sum_cons, List.sum_nil] at h4 ⊢
            linarith
        · exact ih _ _ _ h

lemma buildLoopOrd_inv (b : ℚ) :
    ∀ (l : List (List ScoredPlayer × ℕ)) (st : BuildState),
      BuildInv b st → BuildInv b (buildLoopOrd l st) := by
  intro l
  induction l with
  | nil => intro st h; exact h
  | cons pc rest ih =>
    intro st h
    cases pc with
    | mk ps cnt => exact ih _ (pickLoop_inv b ps 0 cnt st h)

lemma initState_inv (b : ℚ) (hb : 0 ≤ b) :
    BuildInv b ⟨[], b, fun _ => 0⟩ := by
  refine ⟨?_, ?_, hb, ?_⟩
  · intro c
    simp [countClub]
  · intro c
    simp
  · simp [totalPrice]

/-- Two permutations of the same pool that are both sorted by a
descending key with pairwise-distinct key values are equal. -/
lemma sorted_perm_eq_of_distinct {α : Type} (key : α → ℚ) :
    ∀ (l₁ l₂ : List α), List.Perm l₁ l₂ →
      l₁.Sorted (fun x y => key y ≤ key x) → l₂.Sorted (fun x y => key y ≤ key x) →
      l₁.Pairwise (fun x y => key x ≠ key y) → l₁ = l₂ := by
  intro l₁
  induction l₁ with
  | nil =>
    intro l₂ hperm _ _ _
    exact (List.perm_nil.mp hperm.symm).symm
  | cons a t₁ ih =>
    intro l₂ hperm hs₁ hs₂ hd
    cases l₂ with
    | nil => exact absurd (List.perm_nil.mp hperm) (by simp)
    | cons b t₂ =>
      rw [List.sorted_cons] at hs₁ hs₂
      rw [List.pairwise_cons] at hd
      have hab : a = b := by
        have hain : a ∈ b :: t₂ := hperm.mem_iff.mp (List.mem_cons_self a t₁)
        have hbin : b ∈ a :: t₁ := hperm.mem_iff.mpr (List.mem_cons_self b t₂)
        have h1 : key a ≤ key b := by
          rcases List.mem_cons.mp hain with rfl | h
          · exact le_refl _
          · exact hs₂.1 a h
        have h2 : key b ≤ key a := by
          rcases List.mem_cons.mp hbin with rfl | h
          · exact le_refl _
          · exact hs₁.1 b h
        rcases List.mem_cons.mp hbin with he | h
        · exact he.symm
        · exact absurd (le_antisymm h1 h2) (hd.1 b h)
      subst hab
      have htperm : List.Perm t₁ t₂ := (List.perm_cons a).mp hperm
      rw [ih t₂ htperm hs₁.2 hs₂.2 hd.2]

/-- Mapping a function that fixes every member of a list is the
identity. -/
lemma map_eq_self_of_mem {α : Type} (f : α → α) :
    ∀ l : List α, (∀ x ∈ l, f x = x) → l.map f = l := by
  intro l
  induction l with
  | nil => intro _; rfl
  | cons a t ih =>
    intro h
    rw [List.map_cons, h a (List.mem_cons_self a t), ih]
    intro x hx
    exact h x (List.mem_cons_of_mem a hx)

lemma scoreRow_preserves_ppg (c1 c2 c3 c4 c5 : List ℚ) (r : Row) :
    ppgV (scoreRow c1 c2 c3 c4 c5 r) = ppgV r := rfl

lemma scoreRow_preserves_form (c1 c2 c3 c4 c5 : List ℚ) (r : Row) :
    formV (scoreRow c1 c2 c3 c4 c5 r) = formV r := rfl

lemma scoreRow_preserves_ppm (c1 c2 c3 c4 c5 : List ℚ) (r : Row) :
    ppmV (scoreRow c1 c2 c3 c4 c5 r) = ppmV r := rfl

lemma scoreRow_preserves_ict (c1 c2 c3 c4 c5 : List ℚ) (r : Row) :
    ictV (scoreRow c1 c2 c3 c4 c5 r) = ictV r := rfl

lemma scoreRow_preserves_ei (c1 c2 c3 c4 c5 : List ℚ) (r : Row) :
    eiV (scoreRow c1 c2 c3 c4 c5 r) = eiV r := rfl

lemma scoreRow_preserves_minutes (c1 c2 c3 c4 c5 : List ℚ) (r : Row) :
    (scoreRow c1 c2 c3 c4 c5 r).minutes = r.minutes := rfl

lemma scoreRow_idem (c1 c2 c3 c4 c5 : List ℚ) (r : Row) :
    scoreRow c1 c2 c3 c4 c5 (scoreRow c1 c2 c3 c4 c5 r) = scoreRow c1 c2 c3 c4 c5 r := by
  cases r
  rfl

lemma fillAndDerive_after_score (c1 c2 c3 c4 c5 : List ℚ) (r : Row) :
    fillAndDerive (scoreRow c1 c2 c3 c4 c5 (fillAndDerive r)) =
      scoreRow c1 c2 c3 c4 c5 (fillAndDerive r) := by
  cases r
  rfl

lemma baseScore_scoreRow (c1 c2 c3 c4 c5 d1 d2 d3 d4 d5 : List ℚ) (r : Row) :
    baseScore c1 c2 c3 c4 c5 (scoreRow d1 d2 d3 d4 d5 r) = baseScore c1 c2 c3 c4 c5 r := rfl

lemma requireCols_error :
    ∀ (l : List String) (df : DataFrame) (c : String),
      l.find? (fun x => !(hasCol df x)) = some c →
      requireCols df l = .error (.missingColumn c) := by
  intro l
  induction l with
  | nil => intro df c h; simp [List.find?] at h
  | cons a t ih =>
    intro df c h
    by_cases hc : hasCol df a
    · have h' : t.find? (fun x => !(hasCol df x)) = some c := by
        rwa [List.find?_cons_of_neg _ (by simp [hc])] at h
      simpa [requireCols, getCol, hc] using ih df c h'
    · have hca : c = a := by
        have hfa : List.find? (fun x => !(hasCol df x)) (a :: t) = some a :=
          List.find?_cons_of_pos t (by simp [hc])
        rw [hfa] at h
        exact (Option.some.inj h).symm
      subst hca
      simp [requireCols, getCol, hc]

lemma mem_positionRecs {ct avail : List ScoredPlayer} {q : String} {r : TransferRec}
    (hr : r ∈ positionRecs ct avail q) :
    ∃ cur, cur ∈ ct.filter (fun p => p.position == q) ∧
      ∃ rep, rep ∈ replacementsFor (avail.filter (fun p => p.position == q)) cur ∧
        candFor ct q cur rep = some r := by
  unfold positionRecs at hr
  have hr1 := List.take_subset 3 _ hr
  have hr2 := (mem_sortDescBy _ r _).mp hr1
  rw [List.mem_flatten] at hr2
  obtain ⟨l, hl, hrl⟩ := hr2
  rw [List.mem_map] at hl
  obtain ⟨cur, hcur, rfl⟩ := hl
  rw [recsForOut, List.mem_filterMap] at hrl
  obtain ⟨rep, hrep, hcf⟩ := hrl
  exact ⟨cur, hcur, rep, hrep, hcf⟩

lemma mem_recommend_transfers {pool : List ScoredPlayer} {ids : List ℕ} {n : ℕ}
    {r : TransferRec} (hr : r ∈ recommend_transfers pool ids n) :
    ∃ q, q ∈ positions ∧ r ∈ positionRecs (currentTeam pool ids) (availablePool pool ids) q := by
  unfold recommend_transfers at hr
  split at hr
  · simp at hr
  · have hr1 := List.take_subset _ _ hr
    have hr2 := (mem_sortDescBy _ r _).mp hr1
    rw [List.mem_flatten] at hr2
    obtain ⟨l, hl, hrl⟩ := hr2
    rw [List.mem_map] at hl
    obtain ⟨q, hq, rfl⟩ := hl
    exact ⟨q, hq, hrl⟩

lemma replacementsFor_score {ap : List ScoredPlayer} {cur rep : ScoredPlayer}
    (h : rep ∈ replacementsFor ap cur) : cur.value_score < rep.value_score := by
  unfold replacementsFor at h
  have h1 := List.take_subset _ _ h
  have h2 := (mem_sortDescBy _ rep _).mp h1
  rw [List.mem_filter] at h2
  have h3 := h2.2
  simp only [Bool.and_eq_true, decide_eq_true_eq] at h3
  exact h3.1.2

lemma candFor_some {ct : List ScoredPlayer} {q : String} {cur rep : ScoredPlayer}
    {r : TransferRec} (h : candFor ct q cur rep = some r) (hcur : cur ∈ ct) :
    r.position = q ∧ r.out_p = cur ∧ r.in_p = rep ∧
      countClub (swapSquad ct cur rep) rep.team_short ≤ 3 := by
  have hswap : countClub (swapSquad ct cur rep) rep.team_short
      = countClub ct rep.team_short - (if cur.team_short = rep.team_short then 1 else 0) + 1 := by
    unfold swapSquad
    rw [countClub_append, countClub_erase rep.team_short hcur, countClub_cons, countClub_nil]
    simp
  unfold candFor at h
  cases hta : teamCountAfter ct cur rep with
  | none => rw [hta] at h; exact absurd h (by simp)
  | some a =>
    rw [hta] at h
    dsimp only at h
    split_ifs at h with ha
    · obtain rfl : r = recOf q cur rep a := (Option.some.inj h).symm
      refine ⟨rfl, rfl, rfl, ?_⟩
      unfold teamCountAfter at hta
      by_cases h0 : countClub ct rep.team_short ≠ 0
      · by_cases hsame : rep.team_short = cur.team_short
        · rw [if_pos h0, if_pos hsame] at hta
          have haeq := Option.some.inj hta
          have hpos : 1 ≤ countClub ct rep.team_short := by
            rw [hsame]
            exact countClub_pos_of_mem hcur
          rw [hswap, if_pos hsame.symm]
          omega
        · by_cases h3 : 3 ≤ countClub ct rep.team_short
          · rw [if_pos h0, if_neg hsame, if_pos h3] at hta
            exact absurd hta (by simp)
          · rw [if_pos h0, if_neg hsame, if_neg h3] at hta
            have haeq := Option.some.inj hta
            rw [hswap, if_neg (fun he => hsame he.symm)]
            omega
      · have h00 : countClub ct rep.team_short = 0 := not_not.mp h0
        have hne : ¬(cur.team_short = rep.team_short) := by
          intro he
          have := countClub_pos_of_mem hcur
          rw [he] at this
          omega
        rw [hswap, if_neg hne]
        omega

lemma map_congr_fun {α β : Type} (f g : α → β) (h : ∀ x, f x = g x) :
    ∀ l : List α, l.map f = l.map g := by
  intro l
  induction l with
  | nil => rfl
  | cons a t ih => rw [List.map_cons, List.map_cons, h a, ih]

lemma positionRecs_position {ct avail : List ScoredPlayer} {q : String} {r : TransferRec}
    (hr : r ∈ positionRecs ct avail q) : r.position = q := by
  obtain ⟨cur, hcur, rep, hrep, hcf⟩ := mem_positionRecs hr
  exact (candFor_some hcf (List.mem_filter.mp hcur).1).1

lemma positionRecs_length_le (ct avail : List ScoredPlayer) (q : String) :
    (positionRecs ct avail q).length ≤ 3 := by
  unfold positionRecs
  rw [List.length_take]
  omega

lemma countP_positionRecs_ne (ct avail : List ScoredPlayer) (q pos : String)
    (hne : ¬(q = pos)) :
    (positionRecs ct avail q).countP (fun r => r.position == pos) = 0 := by
  rw [List.countP_eq_zero]
  intro r hr
  have hrp := positionRecs_position hr
  simp [hrp, hne]

lemma countP_positionRecs_le (ct avail : List ScoredPlayer) (q pos : String) :
    (positionRecs ct avail q).countP (fun r => r.position == pos) ≤ 3 :=
  le_trans (List.countP_le_length _) (positionRecs_length_le ct avail q)

lemma sorted_recommend (pool : List ScoredPlayer) (ids : List ℕ) (n : ℕ) :
    (recommend_transfers pool ids n).Sorted
      (fun a b => b.score_improvement ≤ a.score_improvement) := by
  unfold recommend_transfers
  split
  · simp
  · exact List.Pairwise.sublist (List.take_sublist _ _) (sorted_sortDescBy _ _)

lemma countP_recommend_le (pool : List ScoredPlayer) (ids : List ℕ) (n : ℕ) (pos : String) :
    (recommend_transfers pool ids n).countP (fun r => r.position == pos) ≤ 3 := by
  unfold recommend_transfers
  split
  · simp
  · refine le_trans (List.Sublist.countP_le _ (List.take_sublist _ _)) ?_
    rw [(perm_sortDescBy _ _).countP_eq]
    have expand :
        ((positions.map (positionRecs (currentTeam pool ids) (availablePool pool ids))).flatten)
          = positionRecs (currentTeam pool ids) (availablePool pool ids) posGK ++
            (positionRecs (currentTeam pool ids) (availablePool pool ids) posDEF ++
              (positionRecs (currentTeam pool ids) (availablePool pool ids) posMID ++
                positionRecs (currentTeam pool ids) (availablePool pool ids) posFWD)) := by
      simp [positions]
    rw [expand, List.countP_append, List.countP_append, List.countP_append]
    have bGK := countP_positionRecs_le (currentTeam pool ids) (availablePool pool ids) posGK pos
    have bDEF := countP_positionRecs_le (currentTeam pool ids) (availablePool pool ids) posDEF pos
    have bMID := countP_positionRecs_le (currentTeam pool ids) (availablePool pool ids) posMID pos
    have bFWD := countP_positionRecs_le (currentTeam pool ids) (availablePool pool ids) posFWD pos
    by_cases h1 : posGK = pos
    · have z2 := countP_positionRecs_ne (currentTeam pool ids) (availablePool pool ids) posDEF pos
        (fun he => (by decide : ¬(posDEF = posGK)) (he.trans h1.symm))
      have z3 := countP_positionRecs_ne (currentTeam pool ids) (availablePool pool ids) posMID pos
        (fun he => (by decide : ¬(posMID = posGK)) (he.trans h1.symm))
      have z4 := countP_positionRecs_ne (currentTeam pool ids) (availablePool pool ids) posFWD pos
        (fun he => (by decide : ¬(posFWD = posGK)) (he.trans h1.symm))
      omega
    · have z1 := countP_positionRecs_ne (currentTeam pool ids) (availablePool pool ids) posGK pos h1
      by_cases h2 : posDEF = pos
      · have z3 := countP_positionRecs_ne (currentTeam pool ids) (availablePool pool ids) posMID pos
          (fun he => (by decide : ¬(posMID = posDEF)) (he.trans h2.symm))
        have z4 := countP_positionRecs_ne (currentTeam pool ids) (availablePool pool ids) posFWD pos
          (fun he => (by decide : ¬(posFWD = posDEF)) (he.trans h2.symm))
        omega
      · have z2 := countP_positionRecs_ne (currentTeam pool ids) (availablePool pool ids) posDEF pos h2
        by_cases h3 : posMID = pos
        · have z4 := countP_positionRecs_ne (currentTeam pool ids) (availablePool pool ids) posFWD pos
            (fun he => (by decide : ¬(posFWD = posMID)) (he.trans h3.symm))
          omega
        · have z3 := countP_positionRecs_ne (currentTeam pool ids) (availablePool pool ids) posMID pos h3
          omega

lemma sortValues_unique {base l l' : List ScoredPlayer}
    (h : SortValuesOf base l) (h' : SortValuesOf base l')
    (hd : DistinctScores base) : l = l' := by
  have hperm : List.Perm l l' := h.1.trans h'.1.symm
  have hdl : l.Pairwise (fun a b => a.value_score ≠ b.value_score) :=
    (h.1.pairwise_iff (fun hab => Ne.symm hab)).mpr hd
  exact sorted_perm_eq_of_distinct (fun p => p.value_score) l l' hperm h.2 h'.2 hdl

/-!
## Claim theorems
-/

/-- C1: for every scored player pool with positive player prices and every
budget ≥ 0, a squad returned by `build_optimal_squad` contains at most 3
players from any one club, and the sum of the selected players' prices is
at most the budget. -/
theorem C1_squad_constraints :
    ∀ (pool : List ScoredPlayer) (budget : ℚ) (s : List ScoredPlayer),
      0 ≤ budget → (∀ p ∈ pool, 0 < p.price) → buildOptimalSquad pool budget = some s →
      (∀ club, countClub s club ≤ 3) ∧ totalPrice s ≤ budget := by
  intro pool budget s hb _hpos hs
  have hsel : s = selectSquad pool budget := by
    unfold buildOptimalSquad at hs
    split at hs
    · exact absurd hs (by simp)
    · exact (Option.some.inj hs).symm
  subst hsel
  obtain ⟨h1, h2, h3, h4⟩ :
      BuildInv budget (buildLoopOrd (orderedCandidates pool) ⟨[], budget, fun _ => 0⟩) :=
    buildLoopOrd_inv budget _ _ (initState_inv budget hb)
  constructor
  · intro club
    unfold selectSquad
    rw [← h1 club]
    exact h2 club
  · unfold selectSquad
    linarith

/-- Witness for C1: a concrete one-goalkeeper pool under budget 100. -/
theorem C1_witness :
    countClub (selectSquad c1Pool 100) c1Club ≤ 3 ∧
      totalPrice (selectSquad c1Pool 100) ≤ 100 := by
  have h := C1_squad_constraints c1Pool 100 (selectSquad c1Pool 100)
    (by norm_num) (by with_unfolding_all decide) (by with_unfolding_all decide)
  exact ⟨h.1 c1Club, h.2⟩

/-- C6 counterexample: on a pool from which nothing can be selected, the
builder does not return a partial result at all — the model's `none`
(the `KeyError` raised by `squad_df['price']` on the empty frame) — even
though every quota is unmet. -/
theorem C6_counterexample :
    (selectSquad ([] : List ScoredPlayer) 100).length < 15 ∧
      buildOptimalSquad ([] : List ScoredPlayer) 100 = none := by
  refine ⟨?_, ?_⟩ <;> decide

/-- C6 amended: when the greedy selection is nonempty, the builder
returns exactly the partial squad frame — no unmet-quota report is part
of the return value, and no exception is raised in that case. -/
theorem C6_amended_returns_partial :
    ∀ (pool : List ScoredPlayer) (budget : ℚ),
      selectSquad pool budget ≠ [] →
      buildOptimalSquad pool budget = some (selectSquad pool budget) := by
  intro pool budget h
  unfold buildOptimalSquad
  rw [if_neg (by simpa [List.isEmpty_iff] using h)]

/-- Witness for the amended C6. -/
theorem C6_witness : buildOptimalSquad c6Pool 100 = some (selectSquad c6Pool 100) :=
  C6_amended_returns_partial c6Pool 100 (by with_unfolding_all decide)

/-- C8 counterexample: the code sorts candidates by value score only, so
two orderings that are both legitimate outputs of
`sort_values('value_score', ascending=False)` on the same pool (equal
scores, differing tie order) lead the greedy loop to different squads —
the selected squad is not uniquely determined, and no ascending-price
tiebreak is applied. -/
theorem C8_counterexample :
    SortValuesOf (eligible c8Pool posGK) [c8g1, c8g2] ∧
      SortValuesOf (eligible c8Pool posGK) [c8g2, c8g1] ∧
      (buildLoopOrd c8Ord1 ⟨[], 5, fun _ => 0⟩).squad ≠
        (buildLoopOrd c8Ord2 ⟨[], 5, fun _ => 0⟩).squad := by
  refine ⟨⟨?_, ?_⟩, ⟨?_, ?_⟩, ?_⟩ <;> with_unfolding_all decide

/-- C8 amended: within each position the candidates are sorted by
descending composite score only; when the scores within each position's
eligible pool are pairwise distinct, any two admissible sort outputs
coincide and the selected squad is uniquely determined. -/
theorem C8_amended_deterministic :
    ∀ (pool : List ScoredPlayer) (budget : ℚ)
      (o1 o2 o3 o4 p1 p2 p3 p4 : List ScoredPlayer),
      SortValuesOf (eligible pool posGK) o1 → SortValuesOf (eligible pool posGK) p1 →
      SortValuesOf (eligible pool posDEF) o2 → SortValuesOf (eligible pool posDEF) p2 →
      SortValuesOf (eligible pool posMID) o3 → SortValuesOf (eligible pool posMID) p3 →
      SortValuesOf (eligible pool posFWD) o4 → SortValuesOf (eligible pool posFWD) p4 →
      DistinctScores (eligible pool posGK) → DistinctScores (eligible pool posDEF) →
      DistinctScores (eligible pool posMID) → DistinctScores (eligible pool posFWD) →
      (buildLoopOrd [(o1, 2), (o2, 5), (o3, 5), (o4, 3)] ⟨[], budget, fun _ => 0⟩).squad =
        (buildLoopOrd [(p1, 2), (p2, 5), (p3, 5), (p4, 3)] ⟨[], budget, fun _ => 0⟩).squad := by
  intro pool budget o1 o2 o3 o4 p1 p2 p3 p4 ho1 hp1 ho2 hp2 ho3 hp3 ho4 hp4 d1 d2 d3 d4
  rw [sortValues_unique ho1 hp1 d1, sortValues_unique ho2 hp2 d2,
    sortValues_unique ho3 hp3 d3, sortValues_unique ho4 hp4 d4]

/-- Witness for the amended C8 at a one-player pool with trivially
distinct scores. -/
theorem C8_witness :
    (buildLoopOrd [([c8wGK], 2), ([], 5), ([], 5), ([], 3)] ⟨[], (100 : ℚ), fun _ => 0⟩).squad =
      (buildLoopOrd [([c8wGK], 2), ([], 5), ([], 5), ([], 3)] ⟨[], (100 : ℚ), fun _ => 0⟩).squad :=
  C8_amended_deterministic c8wPool 100 [c8wGK] [] [] [] [c8wGK] [] [] []
    (by refine ⟨?_, ?_⟩ <;> with_unfolding_all decide)
    (by refine ⟨?_, ?_⟩ <;> with_unfolding_all decide)
    (by refine ⟨?_, ?_⟩ <;> with_unfolding_all decide)
    (by refine ⟨?_, ?_⟩ <;> with_unfolding_all decide)
    (by refine ⟨?_, ?_⟩ <;> with_unfolding_all decide)
    (by refine ⟨?_, ?_⟩ <;> with_unfolding_all decide)
    (by refine ⟨?_, ?_⟩ <;> with_unfolding_all decide)
    (by refine ⟨?_, ?_⟩ <;> with_unfolding_all decide)
    (by unfold DistinctScores; with_unfolding_all decide)
    (by unfold DistinctScores; with_unfolding_all decide)
    (by unfold DistinctScores; with_unfolding_all decide)
    (by unfold DistinctScores; with_unfolding_all decide)

lemma clampQ_le {lo hi : ℚ} (x : ℚ) (h : lo ≤ hi) : clampQ lo hi x ≤ hi :=
  max_le h (min_le_left _ _)

lemma le_clampQ (lo hi x : ℚ) : lo ≤ clampQ lo hi x := le_max_left _ _

lemma rawOutcome_sum (h_stats a_stats : TeamStats) :
    (rawOutcome h_stats a_stats).1 + (rawOutcome h_stats a_stats).2.1 +
      (rawOutcome h_stats a_stats).2.2 = 1 := by
  unfold rawOutcome
  dsimp only
  split_ifs <;> dsimp only <;> ring

/-- C3 counterexample, realizing the spec's worked example (overall
strengths 120 vs 80): after the away-win probability is clamped up to
0.05 the returned probabilities sum to 1.016, not 1 — the code performs
no renormalization after clamping. -/
theorem C3_counterexample :
    (predictMatchOutcome c3Table c3H c3A).home_win + (predictMatchOutcome c3Table c3H c3A).draw +
        (predictMatchOutcome c3Table c3H c3A).away_win = 127/125 ∧
      ¬((predictMatchOutcome c3Table c3H c3A).home_win + (predictMatchOutcome c3Table c3H c3A).draw +
        (predictMatchOutcome c3Table c3H c3A).away_win = 1) := by
  refine ⟨?_, ?_⟩ <;> with_unfolding_all decide

/-- C3 amended: for every pair of clubs the three returned probabilities
lie within their clamp bounds (home/away win in [0.05, 0.85], draw in
[0.15, 0.40]), and the probabilities sum to 1 *before* clamping; no
renormalization is applied after clamping. -/
theorem C3_amended_bounds :
    ∀ (ts : List (String × TeamStats)) (home away : String),
      (5/100 ≤ (predictMatchOutcome ts home away).home_win ∧
        (predictMatchOutcome ts home away).home_win ≤ 85/100) ∧
      (15/100 ≤ (predictMatchOutcome ts home away).draw ∧
        (predictMatchOutcome ts home away).draw ≤ 40/100) ∧
      (5/100 ≤ (predictMatchOutcome ts home away).away_win ∧
        (predictMatchOutcome ts home away).away_win ≤ 85/100) ∧
      (rawOutcome (statsOrDefault ts home) (statsOrDefault ts away)).1 +
          (rawOutcome (statsOrDefault ts home) (statsOrDefault ts away)).2.1 +
          (rawOutcome (statsOrDefault ts home) (statsOrDefault ts away)).2.2 = 1 := by
  intro ts home away
  refine ⟨⟨le_clampQ _ _ _, clampQ_le _ (by norm_num)⟩,
    ⟨le_clampQ _ _ _, clampQ_le _ (by norm_num)⟩,
    ⟨le_clampQ _ _ _, clampQ_le _ (by norm_num)⟩,
    rawOutcome_sum _ _⟩

/-- C7: if a required metric column is structurally absent from the
input frame, the computation fails with an error naming the first
absent required column (pandas `KeyError(column)` — the spec's
ConfigurationError condition), rather than substituting a default. -/
theorem C7_missing_column :
    ∀ (df : DataFrame) (c : String), firstMissing df = some c →
      calcChecked df = .error (.missingColumn c) ∧ c ∈ requiredCols ∧ hasCol df c = false := by
  intro df c h
  refine ⟨?_, List.mem_of_find?_eq_some h, ?_⟩
  · have he := requireCols_error requiredCols df c h
    unfold calcChecked
    rw [he]
  · have := List.find?_some h
    simpa using this

/-- Witness for C7: a frame missing the `form` column fails naming
`form`. -/
theorem C7_witness :
    calcChecked c7Df = .error (.missingColumn colForm) ∧ colForm ∈ requiredCols ∧
      hasCol c7Df colForm = false :=
  C7_missing_column c7Df colForm (by decide)

/-- C10: for every club code `u` absent from the strength table, each of
the three predictors silently substitutes the default strengths
(attack 50, defense 50, overall 100) for `u` — in either argument
position, against an arbitrary (possibly known) opponent — and returns
the value the same formula computes from those defaults and the
opponent's looked-up strengths; no failure occurs.  With two unknown
clubs the outcome is the fixed triple (0.525, 0.30, 0.175). -/
theorem C10_default_strengths :
    ∀ (ts : List (String × TeamStats)) (u other : String) (ih : Bool),
      lookupStats ts u = none →
      predictMatchOutcome ts u other = outcomeFromStats defaultStats (statsOrDefault ts other) ∧
      predictMatchOutcome ts other u = outcomeFromStats (statsOrDefault ts other) defaultStats ∧
      predictGoals ts u other = goalsFromStats defaultStats (statsOrDefault ts other) ∧
      predictGoals ts other u = goalsFromStats (statsOrDefault ts other) defaultStats ∧
      predictCleanSheet ts u other ih =
        cleanSheetFromStats defaultStats (statsOrDefault ts other) ih ∧
      predictCleanSheet ts other u ih =
        cleanSheetFromStats (statsOrDefault ts other) defaultStats ih ∧
      outcomeFromStats defaultStats defaultStats = ⟨21/40, 3/10, 7/40⟩ := by
  intro ts u other ih h1
  have e1 : statsOrDefault ts u = defaultStats := by
    unfold statsOrDefault
    rw [h1]
    rfl
  refine ⟨?_, ?_, ?_, ?_, ?_, ?_, by with_unfolding_all decide⟩
  · unfold predictMatchOutcome
    rw [e1]
  · unfold predictMatchOutcome
    rw [e1]
  · unfold predictGoals
    rw [e1]
  · unfold predictGoals
    rw [e1]
  · unfold predictCleanSheet
    rw [e1]
  · unfold predictCleanSheet
    rw [e1]

/-- Witness for C10: an unknown club code against a club the table
knows, in both argument positions. -/
theorem C10_witness :
    predictMatchOutcome c10Table c10H c10Known =
        outcomeFromStats defaultStats (statsOrDefault c10Table c10Known) ∧
      predictMatchOutcome c10Table c10Known c10H =
        outcomeFromStats (statsOrDefault c10Table c10Known) defaultStats ∧
      predictGoals c10Table c10H c10Known =
        goalsFromStats defaultStats (statsOrDefault c10Table c10Known) ∧
      predictGoals c10Table c10Known c10H =
        goalsFromStats (statsOrDefault c10Table c10Known) defaultStats ∧
      predictCleanSheet c10Table c10H c10Known true =
        cleanSheetFromStats defaultStats (statsOrDefault c10Table c10Known) true ∧
      predictCleanSheet c10Table c10Known c10H true =
        cleanSheetFromStats (statsOrDefault c10Table c10Known) defaultStats true ∧
      outcomeFromStats defaultStats defaultStats = ⟨21/40, 3/10, 7/40⟩ :=
  C10_default_strengths c10Table c10H c10Known true (by decide)

/-- C4: every transfer candidate returned by `recommend_transfers` has
an incoming player whose value score strictly exceeds the outgoing
player's, and the incoming player's club counts at most 3 squad members
after the swap. -/
theorem C4_transfer_invariants :
    ∀ (pool : List ScoredPlayer) (ids : List ℕ) (n : ℕ) (r : TransferRec),
      r ∈ recommend_transfers pool ids n →
      r.out_p.value_score < r.in_p.value_score ∧
        countClub (swapSquad (currentTeam pool ids) r.out_p r.in_p) r.in_p.team_short ≤ 3 := by
  intro pool ids n r hr
  obtain ⟨q, _hq, hpr⟩ := mem_recommend_transfers hr
  obtain ⟨cur, hcur, rep, hrep, hcf⟩ := mem_positionRecs hpr
  have hcur' : cur ∈ currentTeam pool ids := (List.mem_filter.mp hcur).1
  obtain ⟨_hpos, hout, hin, hcount⟩ := candFor_some hcf hcur'
  have hscore := replacementsFor_score hrep
  rw [hout, hin]
  exact ⟨hscore, hcount⟩

/-- Witness for C4: a one-player squad with a strictly better available
candidate from another club. -/
theorem C4_witness :
    c4TransferRec.out_p.value_score < c4TransferRec.in_p.value_score ∧
      countClub (swapSquad (currentTeam c4Pool c4Ids) c4TransferRec.out_p c4TransferRec.in_p)
        c4TransferRec.in_p.team_short ≤ 3 :=
  C4_transfer_invariants c4Pool c4Ids 1 c4TransferRec (by with_unfolding_all decide)

/-- C5 counterexample: with two transfers available the overall cap is
6, and outgoing player 12 has three surviving improving candidates of
its own (its per-player top 3), yet the returned list has only 3 entries
and none of them is for player 12 — the cap is applied per position, so
the other outgoing player's larger improvements fill all three slots. -/
theorem C5_counterexample :
    ((recommend_transfers c5Pool c5Ids 2).filter (fun r => r.out_p.id == 12)) = [] ∧
      (recommend_transfers c5Pool c5Ids 2).length = 3 ∧
      (recsForOut c5CT c5AvailPos posGK c5B).length = 3 := by
  refine ⟨?_, ?_, ?_⟩ <;> with_unfolding_all decide

/-- C5 amended: candidates are ranked by descending score improvement
and capped at the top 3 per *position* (as the function's docstring
says), then the overall list is capped at `transfers_available * 3`;
consequently the returned list never contains more than 3 entries for
one position and is sorted by descending score improvement. -/
theorem C5_amended_position_cap :
    ∀ (pool : List ScoredPlayer) (ids : List ℕ) (n : ℕ) (pos : String),
      (recommend_transfers pool ids n).countP (fun r => r.position == pos) ≤ 3 ∧
        (recommend_transfers pool ids n).Sorted
          (fun a b => b.score_improvement ≤ a.score_improvement) :=
  fun pool ids n pos => ⟨countP_recommend_le pool ids n pos, sorted_recommend pool ids n⟩

lemma scoreRow_preserves_chance (c1 c2 c3 c4 c5 : List ℚ) (r : Row) :
    chanceV (scoreRow c1 c2 c3 c4 c5 r) = chanceV r := rfl

lemma scoreRow_preserves_status (c1 c2 c3 c4 c5 : List ℚ) (r : Row) :
    (scoreRow c1 c2 c3 c4 c5 r).status = r.status := rfl

lemma baseOf_scoreRow (rows : List Row) (c1 c2 c3 c4 c5 : List ℚ) (r : Row) :
    baseOf rows (scoreRow c1 c2 c3 c4 c5 r) = baseOf rows r := rfl

lemma baseOf_bounds {rows : List Row} {d : Row} (hd : d ∈ prep rows) :
    0 ≤ baseOf rows d ∧ baseOf rows d ≤ 1 := by
  have b1 := minmax_mem_bounds (List.mem_map_of_mem ppgV hd)
  have b2 := minmax_mem_bounds (List.mem_map_of_mem formV hd)
  have b3 := minmax_mem_bounds (List.mem_map_of_mem ppmV hd)
  have b4 := minmax_mem_bounds (List.mem_map_of_mem ictV hd)
  have b5 := minmax_mem_bounds (List.mem_map_of_mem eiV hd)
  unfold baseOf baseScore
  constructor
  · linarith [b1.1, b2.1, b3.1, b4.1, b5.1]
  · linarith [b1.2, b2.2, b3.2, b4.2, b5.2]

lemma scoreRow_value (c1 c2 c3 c4 c5 : List ℚ) (r : Row)
    (hch : chanceV r < 100) (hst : r.status ≠ "a") :
    (scoreRow c1 c2 c3 c4 c5 r).value_score =
      baseScore c1 c2 c3 c4 c5 r * (5/10) * (3/10) := by
  unfold scoreRow
  dsimp only
  rw [if_pos hch, if_pos hst]

/-- C2: every player's composite value score lies in [0, 1] before the
availability penalties; a player with chance of playing below 100 and a
status other than available receives both multiplicative penalties (×0.5
then ×0.3), so the final score equals base × 0.5 × 0.3 and lies in
[0, 0.15]. -/
theorem C2_score_bounds :
    ∀ (rows : List Row) (r : Row), r ∈ calculate_value_score rows →
      (0 ≤ baseOf rows r ∧ baseOf rows r ≤ 1) ∧
      (chanceV r < 100 → r.status ≠ "a" →
        r.value_score = baseOf rows r * (5/10) * (3/10) ∧
          0 ≤ r.value_score ∧ r.value_score ≤ 3/20) := by
  intro rows r hr
  unfold calculate_value_score at hr
  obtain ⟨d, hd, rfl⟩ := List.mem_map.mp hr
  have hbd := baseOf_bounds hd
  have hbr : baseOf rows (scoreRow ((prep rows).map ppgV) ((prep rows).map formV)
      ((prep rows).map ppmV) ((prep rows).map ictV) ((prep rows).map eiV) d) = baseOf rows d :=
    baseOf_scoreRow rows _ _ _ _ _ d
  constructor
  · rw [hbr]
    exact hbd
  · intro hch hst
    have hch' : chanceV d < 100 := by rwa [scoreRow_preserves_chance] at hch
    have hst' : d.status ≠ "a" := by rwa [scoreRow_preserves_status] at hst
    have hval := scoreRow_value ((prep rows).map ppgV) ((prep rows).map formV)
      ((prep rows).map ppmV) ((prep rows).map ictV) ((prep rows).map eiV) d hch' hst'
    have hbb : baseScore ((prep rows).map ppgV) ((prep rows).map formV) ((prep rows).map ppmV)
        ((prep rows).map ictV) ((prep rows).map eiV) d = baseOf rows d := rfl
    rw [hval, hbb, hbr]
    refine ⟨rfl, ?_, ?_⟩
    · linarith [hbd.1]
    · linarith [hbd.2]

/-- Witness for C2: the doubtful player (status `d`, 75% chance) in a
two-player pool. -/
theorem C2_witness :
    (0 ≤ baseOf c2Rows c2Out ∧ baseOf c2Rows c2Out ≤ 1) ∧
      c2Out.value_score = baseOf c2Rows c2Out * (5/10) * (3/10) ∧
      0 ≤ c2Out.value_score ∧ c2Out.value_score ≤ 3/20 := by
  have h := C2_score_bounds c2Rows c2Out (by with_unfolding_all decide)
  exact ⟨h.1, h.2 (by with_unfolding_all decide) (by with_unfolding_all decide)⟩

/-- C9: rescoring an already-scored snapshot changes nothing — the
derived columns are recomputed from the unchanged base columns, so the
whole frame (in particular every value score) is identical. -/
theorem C9_idempotent :
    ∀ rows : List Row, (∀ r ∈ rows, 0 < r.price) →
      calculate_value_score (calculate_value_score rows) = calculate_value_score rows := by
  intro rows _hp
  have hfix : ∀ x ∈ calculate_value_score rows, fillAndDerive x = x := by
    intro x hx
    unfold calculate_value_score at hx
    obtain ⟨d, hd, rfl⟩ := List.mem_map.mp hx
    unfold prep at hd
    obtain ⟨z, _hz, rfl⟩ := List.mem_map.mp hd
    exact fillAndDerive_after_score _ _ _ _ _ z
  have hmin : ∀ x ∈ calculate_value_score rows, decide (0 < x.minutes) = true := by
    intro x hx
    unfold calculate_value_score at hx
    obtain ⟨d, hd, rfl⟩ := List.mem_map.mp hx
    unfold prep at hd
    obtain ⟨z, hz, rfl⟩ := List.mem_map.mp hd
    exact (List.mem_filter.mp hz).2
  have hc1 : (calculate_value_score rows).map ppgV = (prep rows).map ppgV := by
    unfold calculate_value_score
    rw [List.map_map]
    exact map_congr_fun _ _ (fun d => rfl) _
  have hc2 : (calculate_value_score rows).map formV = (prep rows).map formV := by
    unfold calculate_value_score
    rw [List.map_map]
    exact map_congr_fun _ _ (fun d => rfl) _
  have hc3 : (calculate_value_score rows).map ppmV = (prep rows).map ppmV := by
    unfold calculate_value_score
    rw [List.map_map]
    exact map_congr_fun _ _ (fun d => rfl) _
  have hc4 : (calculate_value_score rows).map ictV = (prep rows).map ictV := by
    unfold calculate_value_score
    rw [List.map_map]
    exact map_congr_fun _ _ (fun d => rfl) _
  have hc5 : (calculate_value_score rows).map eiV = (prep rows).map eiV := by
    unfold calculate_value_score
    rw [List.map_map]
    exact map_congr_fun _ _ (fun d => rfl) _
  have hprep : prep (calculate_value_score rows) = calculate_value_score rows := by
    unfold prep
    rw [List.filter_eq_self.mpr hmin]
    exact map_eq_self_of_mem _ _ hfix
  set L := calculate_value_score rows with hL
  unfold calculate_value_score
  rw [hprep, hc1, hc2, hc3, hc4, hc5, hL]
  unfold calculate_value_score
  rw [List.map_map]
  exact map_congr_fun _ _ (fun d => scoreRow_idem _ _ _ _ _ d) _

/-- Witness for C9: a two-player snapshot with positive prices. -/
theorem C9_witness :
    calculate_value_score (calculate_value_score c9Rows) = calculate_value_score c9Rows :=
  C9_idempotent c9Rows (by with_unfolding_all decide)

end FPL
